import Mathlib

/-!
Verification development for the resilient DAG execution engine of the
repository ai-coding-agent-glassbox.  The definitions below are a shallow
embedding, translated function by function, of

  * examples/error-recovery/error_recovery.py
      (ErrorTaxonomy, ResilienceConfig, RetryStrategy, FallbackChain,
       CircuitBreaker, ResilientExecutor), and
  * examples/plan-and-execute/dag_executor.py
      (StepStatus, DAGStep, DAGExecutor).

Modelling conventions:
  * Python floats (delays, timestamps) are modelled as rationals.
  * A Python action is modelled by the outcome it produces: a value of
    `Except Err α` where `Err` mirrors the exception taxonomy; an action
    that is only invoked conditionally is passed as a function `Unit →
    Except Err α` so that being invoked or ignored is observable.
  * `random.uniform(0, x)` is modelled as `u * x` for a sample
    `u ∈ [0, 1]` (`uniform(a, b)` is `a + (b - a) * random()`).
  * Statements `await`ed to completion in sequence (the executors await
    every task before proceeding) are modelled by ordinary sequential
    evaluation; wall-clock time is an explicit parameter `now`.
  * Mutation of `self` is modelled by explicit state passing.
-/

namespace Glassbox

/-- Error taxonomy of error_recovery.py: TransientError, RecoverableError,
PermanentError, CatastrophicError, plus any other `Exception`.  Each carries
its message (`str(e)`). -/
inductive Err where
  | transient (msg : String)
  | recoverable (msg : String)
  | permanent (msg : String)
  | catastrophic (msg : String)
  | other (msg : String)
deriving DecidableEq, Repr

/-- Message carried by an error, as Python `str(e)`. -/
def Err.msg : Err → String
  | .transient m => m
  | .recoverable m => m
  | .permanent m => m
  | .catastrophic m => m
  | .other m => m

/-- ResilienceConfig of error_recovery.py, with its default field values.
`max_fallback_depth` is kept as an integer because Python allows a negative
value there and `FallbackChain.execute` slices with it. -/
structure ResilienceConfig where
  max_retries : Nat := 3
  base_delay : ℚ := 1
  max_delay : ℚ := 30
  exponential_base : ℚ := 2
  jitter_factor : ℚ := 1 / 10
  max_fallback_depth : Int := 4
  fallback_timeout : ℚ := 60
  failure_threshold : Nat := 5
  recovery_timeout : ℚ := 30
  half_open_max_calls : Nat := 3
deriving DecidableEq, Repr

/-- The deterministic part of RetryStrategy.calculate_delay:
`delay = min(base_delay * exponential_base ** attempt, max_delay)`. -/
def retry_delay_det (cfg : ResilienceConfig) (attempt : Nat) : ℚ :=
  min (cfg.base_delay * cfg.exponential_base ^ attempt) cfg.max_delay

/-- RetryStrategy.calculate_delay.  `u ∈ [0, 1]` is the sample drawn by
`random.uniform(0, delay * jitter_factor)`, so the jitter added is
`u * (delay * jitter_factor)`. -/
def calculate_delay (cfg : ResilienceConfig) (attempt : Nat) (u : ℚ) : ℚ :=
  retry_delay_det cfg attempt + u * (retry_delay_det cfg attempt * cfg.jitter_factor)

/-- Body of the `for attempt in range(max_retries + 1)` loop of
RetryStrategy.execute_with_retry, with `remaining = max_retries - attempt`
(so the Python guard `attempt < max_retries` is `remaining ≠ 0`).
`op attempt` is the outcome of the operation at the given attempt index.
Returns the final outcome together with the number of attempts made. -/
def retryAux (op : Nat → Except Err α) : Nat → Nat → Except Err α × Nat
  | attempt, remaining =>
    match op attempt, remaining with
    | .ok v, _ => (.ok v, 1)
    | .error (.transient m), 0 => (.error (.transient m), 1)
    | .error (.transient _), r + 1 =>
      let rest := retryAux op (attempt + 1) r
      (rest.1, rest.2 + 1)
    | .error e, _ => (.error e, 1)

/-- RetryStrategy.execute_with_retry: retries Transient failures up to
`max_retries` extra times; Permanent and Catastrophic are re-raised at
once, and any other exception (Recoverable included) propagates uncaught.
Returns the outcome and the total number of attempts made. -/
def execute_with_retry (cfg : ResilienceConfig) (op : Nat → Except Err α) :
    Except Err α × Nat :=
  retryAux op 0 cfg.max_retries

/-- Python list slice `l[:k]` for an arbitrary integer `k`: a nonnegative
`k` keeps the first `k` elements; a negative `k` drops the last `-k`. -/
def pySlice (l : List α) (k : Int) : List α :=
  if 0 ≤ k then l.take k.toNat else l.take (l.length - (-k).toNat)

/-- FallbackResult of error_recovery.py. -/
structure FallbackResult (α : Type) where
  success : Bool
  result : Option α := none
  fallback_level : Nat := 0
  error : Option Err := none
deriving DecidableEq, Repr

/-- Loop body of FallbackChain.execute over the operation list
`operations = [primary] + fallbacks[:max_fallback_depth - 1]`, carrying the
current `level`.  A CatastrophicError re-raises (the `Except.error` arm);
any other failure advances, and on the last operation the failure is
returned as a `FallbackResult` carrying that error.  Also counts the
operations invoked. -/
def fallbackGo (ops : List (Unit → Except Err α)) (level : Nat) :
    Except Err (FallbackResult α) × Nat :=
  match ops with
  | [] =>
    (.ok { success := false, error := some (.other "No operations available") }, 0)
  | op :: rest =>
    match op (), rest with
    | .ok v, _ =>
      (.ok { success := true, result := some v, fallback_level := level }, 1)
    | .error (.catastrophic m), _ => (.error (.catastrophic m), 1)
    | .error e, [] =>
      (.ok { success := false, fallback_level := level, error := some e }, 1)
    | .error _, r :: rs =>
      let rest := fallbackGo (r :: rs) (level + 1)
      (rest.1, rest.2 + 1)

/-- FallbackChain.execute with chain `fallbacks`: tries
`[primary] + fallbacks[:max_fallback_depth - 1]` in order. -/
def fallback_execute (cfg : ResilienceConfig) (primary : Unit → Except Err α)
    (fallbacks : List (Unit → Except Err α)) : Except Err (FallbackResult α) × Nat :=
  fallbackGo (primary :: pySlice fallbacks (cfg.max_fallback_depth - 1)) 0

/-- CircuitState of error_recovery.py. -/
inductive CircuitState where
  | CLOSED
  | OPEN
  | HALF_OPEN
deriving DecidableEq, Repr

/-- CircuitBreaker of error_recovery.py.  `time.time()` values are
rationals supplied explicitly as `now` parameters. -/
structure CircuitBreaker where
  name : String
  config : ResilienceConfig
  state : CircuitState := .CLOSED
  failure_count : Nat := 0
  success_count : Nat := 0
  last_failure_time : Option ℚ := none
  half_open_calls : Nat := 0
deriving DecidableEq, Repr

/-- CircuitBreaker._should_attempt_recovery at time `now`. -/
def should_attempt_recovery (cb : CircuitBreaker) (now : ℚ) : Bool :=
  match cb.last_failure_time with
  | none => true
  | some t => decide (cb.config.recovery_timeout ≤ now - t)

/-- CircuitBreaker.is_open (a property with a side effect: an OPEN breaker
past its recovery timeout moves to HALF_OPEN and resets half_open_calls).
Returns the boolean and the updated breaker. -/
def is_open (cb : CircuitBreaker) (now : ℚ) : Bool × CircuitBreaker :=
  match cb.state with
  | .OPEN =>
    if should_attempt_recovery cb now then
      (false, { cb with state := .HALF_OPEN, half_open_calls := 0 })
    else
      (true, cb)
  | _ => (false, cb)

/-- CircuitBreaker.record_success: resets failure_count, and while
HALF_OPEN counts successes, closing at half_open_max_calls. -/
def record_success (cb : CircuitBreaker) : CircuitBreaker :=
  let cb := { cb with failure_count := 0 }
  match cb.state with
  | .HALF_OPEN =>
    if cb.config.half_open_max_calls ≤ cb.success_count + 1 then
      { cb with state := .CLOSED, success_count := 0 }
    else
      { cb with success_count := cb.success_count + 1 }
  | _ => cb

/-- CircuitBreaker.record_failure at time `now`: increments failure_count,
stamps last_failure_time; HALF_OPEN trips to OPEN at once, otherwise the
breaker opens when failure_count reaches failure_threshold. -/
def record_failure (cb : CircuitBreaker) (now : ℚ) : CircuitBreaker :=
  let cb := { cb with failure_count := cb.failure_count + 1,
                      last_failure_time := some now }
  match cb.state with
  | .HALF_OPEN => { cb with state := .OPEN }
  | _ =>
    if cb.config.failure_threshold ≤ cb.failure_count then
      { cb with state := .OPEN }
    else
      cb

/-- CircuitBreaker.execute at time `now`: when is_open, raises
TransientError without invoking the operation; otherwise invokes it and
records its success, or records the failure of ANY exception (the Python
handler is `except Exception`, so CatastrophicError is recorded too) and
re-raises it. -/
def cb_execute (cb : CircuitBreaker) (now : ℚ) (op : Unit → Except Err α) :
    Except Err α × CircuitBreaker :=
  let p := is_open cb now
  if p.1 then
    (.error (.transient ("Circuit " ++ p.2.name ++ " is open")), p.2)
  else
    match op () with
    | .ok v => (.ok v, record_success p.2)
    | .error e => (.error e, record_failure p.2 now)

/-- Python values flowing out of ResilientExecutor.execute: a real action
result, Python `None` (the result of the placeholder `lambda: None`), or
an un-awaited coroutine object.  The last arises because the executor
passes the *synchronous* closure `lambda: circuit.execute(operation)` to
`execute_with_retry`; `RetryStrategy._execute` sees a non-coroutine
function, calls it via `run_in_executor`, and the call merely *creates*
the `CircuitBreaker.execute(...)` coroutine without awaiting it, so that
coroutine object itself is returned as the successful result. -/
inductive PyVal (β : Type) where
  | val (b : β)
  | pynone
  | coro
deriving DecidableEq, Repr

/-- ResilientExecutor.execute for the breaker `cb` (looked up by
circuit_name in the Python registry).  Two facts of the source govern the
shape: (1) on the open-breaker path the fallback chain is run with
`lambda: None` as its primary, which succeeds immediately with `None`;
(2) on the breaker-allowed path, `execute_with_retry(lambda:
circuit.execute(operation))` never raises and never runs the operation —
it returns the un-awaited `circuit.execute(operation)` coroutine object
on its first attempt (see `PyVal.coro`), so no retry, no breaker
recording, and no fallback attempt ever happens there. -/
def resilient_execute (cfg : ResilienceConfig) (now : ℚ)
    (cb : CircuitBreaker) (_operation : Nat → Except Err (PyVal β))
    (fallbacks : List (Unit → Except Err (PyVal β))) :
    Except Err (PyVal β) × CircuitBreaker :=
  let p := is_open cb now
  if p.1 then
    match fallbacks with
    | [] =>
      (.error (.transient ("Circuit " ++ p.2.name ++ " is open and no fallbacks")), p.2)
    | _ :: _ =>
      let r := fallback_execute cfg (fun _ => Except.ok .pynone) fallbacks
      match r.1 with
      | .ok fr =>
        if fr.success then
          (.ok (fr.result.getD .pynone), p.2)
        else
          (.error (.transient ("Circuit " ++ p.2.name ++ " is open and no fallbacks")), p.2)
      | .error e => (.error e, p.2)
  else
    (.ok .coro, p.2)

/-- Spec-side circuit breaker step (definition follows the words of spec
section 4.3, for comparison with the source-derived `record_success` /
`record_failure`): in HALF_OPEN, `halfOpenMaxCalls` *consecutive*
successes close the breaker and counters are reset, so a failure while
HALF_OPEN both reopens the breaker and clears the success streak. -/
def spec_record_success (cb : CircuitBreaker) : CircuitBreaker :=
  match cb.state with
  | .CLOSED => { cb with failure_count := 0 }
  | .HALF_OPEN =>
    if cb.config.half_open_max_calls ≤ cb.success_count + 1 then
      { cb with state := .CLOSED, success_count := 0, failure_count := 0 }
    else
      { cb with success_count := cb.success_count + 1, failure_count := 0 }
  | .OPEN => { cb with failure_count := 0 }

/-- Spec-side circuit breaker failure step (follows the words of spec
section 4.3): a failure while HALF_OPEN returns to OPEN with the success
streak cleared; while CLOSED it increments failure_count, opening at the
threshold. -/
def spec_record_failure (cb : CircuitBreaker) (now : ℚ) : CircuitBreaker :=
  let cb := { cb with failure_count := cb.failure_count + 1,
                      last_failure_time := some now }
  match cb.state with
  | .HALF_OPEN => { cb with state := .OPEN, success_count := 0 }
  | _ =>
    if cb.config.failure_threshold ≤ cb.failure_count then
      { cb with state := .OPEN }
    else
      cb

/-- Spec-side CircuitBreaker.execute built from the spec-side recording
steps, with the same OPEN-gating as the source. -/
def spec_cb_execute (cb : CircuitBreaker) (now : ℚ) (op : Unit → Except Err α) :
    Except Err α × CircuitBreaker :=
  let p := is_open cb now
  if p.1 then
    (.error (.transient ("Circuit " ++ p.2.name ++ " is open")), p.2)
  else
    match op () with
    | .ok v => (.ok v, spec_record_success p.2)
    | .error e => (.error e, spec_record_failure p.2 now)

/-- A timed call against a breaker: the wall-clock time of the call and
the outcome the operation would produce if invoked. -/
structure CBCall where
  now : ℚ
  outcome : Except Err String

/-- Run a sequence of timed calls through the source-derived breaker. -/
def cb_run (cb : CircuitBreaker) : List CBCall → CircuitBreaker
  | [] => cb
  | c :: rest => cb_run (cb_execute cb c.now (fun _ => c.outcome)).2 rest

/-- Run a sequence of timed calls through the spec-side breaker. -/
def spec_cb_run (cb : CircuitBreaker) : List CBCall → CircuitBreaker
  | [] => cb
  | c :: rest => spec_cb_run (spec_cb_execute cb c.now (fun _ => c.outcome)).2 rest

/-- StepStatus of dag_executor.py. -/
inductive StepStatus where
  | PENDING
  | READY
  | RUNNING
  | COMPLETED
  | FAILED
  | SKIPPED
deriving DecidableEq, Repr

/-- DAGStep of dag_executor.py.  The attached action is supplied
separately to the executor as a map from step id to outcome. -/
structure DAGStep where
  id : String
  name : String := ""
  depends_on : List String := []
  status : StepStatus := .PENDING
  result : String := ""
  error : Option String := none
deriving DecidableEq, Repr

/-- DAGExecutor.build_dependency_graph: inserts `step.id ↦ depends_on`
into a dict (overwriting in place on a duplicate id).  No validation of
any kind is performed. -/
def build_dependency_graph (steps : List DAGStep) : List (String × List String) :=
  steps.foldl
    (fun g s =>
      if g.any (fun p => p.1 = s.id) then
        g.map (fun p => if p.1 = s.id then (s.id, s.depends_on) else p)
      else
        g ++ [(s.id, s.depends_on)])
    []

/-- Per-step body of DAGExecutor.get_ready_steps: a PENDING step with a
dependency in `failed` becomes SKIPPED with error "Dependency failed"; a
PENDING step with all dependencies in `completed` becomes READY and is
flagged for dispatch; every other step is untouched. -/
def get_ready_step (completed failed : List String) (step : DAGStep) :
    DAGStep × Bool :=
  if step.status ≠ .PENDING then
    (step, false)
  else if step.depends_on.any (fun d => failed.contains d) then
    ({ step with status := .SKIPPED, error := some "Dependency failed" }, false)
  else if step.depends_on.all (fun d => completed.contains d) then
    ({ step with status := .READY }, true)
  else
    (step, false)

/-- DAGExecutor.get_ready_steps: updates every step in place and flags
the steps returned in the ready list. -/
def get_ready_steps (steps : List DAGStep) (completed failed : List String) :
    List (DAGStep × Bool) :=
  steps.map (get_ready_step completed failed)

/-- DAGExecutor.execute_step for a step whose action yields `outcome`:
status goes to RUNNING and then, because the `except Exception` handler
catches every raised error (CatastrophicError included), to COMPLETED
with the result or FAILED with the error message — never re-raising. -/
def execute_step (outcome : Except Err String) (step : DAGStep) : DAGStep :=
  let step := { step with status := .RUNNING }
  match outcome with
  | .ok r => { step with result := r, status := .COMPLETED }
  | .error e => { step with error := some (Err.msg e), status := .FAILED }

/-- The seeding loop at the top of DAGExecutor.execute: every step with no
dependencies is marked READY before the dispatch loop starts. -/
def seed (steps : List DAGStep) : List DAGStep :=
  steps.map (fun s => if s.depends_on.isEmpty then { s with status := .READY } else s)

/-- One dispatch wave: execute every flagged step (those returned by
get_ready_steps) and leave the others as updated. -/
def run_wave (acts : String → Except Err String) (flagged : List (DAGStep × Bool)) :
    List DAGStep :=
  flagged.map (fun p => if p.2 then execute_step (acts p.1.id) p.1 else p.1)

/-- The merge loop of DAGExecutor.execute: ids of just-executed steps are
added to the completed / failed sets according to their status. -/
def merge_ids (executed : List DAGStep) (completed failed : List String) :
    List String × List String :=
  (completed ++ (executed.filter (fun s => s.status = .COMPLETED)).map DAGStep.id,
   failed ++ (executed.filter (fun s => s.status = .FAILED)).map DAGStep.id)

/-- The `while True` dispatch loop of DAGExecutor.execute.  Because every
`asyncio.gather` is awaited to completion inside the loop body, no step is
ever in RUNNING state when readiness is recomputed, so the
`if not running: break` arm always breaks when the ready list is empty.
`fuel` bounds the iterations; `none` means the fuel ran out. -/
def executeLoop (acts : String → Except Err String) :
    Nat → List DAGStep → List String → List String → Option (List DAGStep)
  | 0, _, _, _ => none
  | fuel + 1, steps, completed, failed =>
    let flagged := get_ready_steps steps completed failed
    if flagged.all (fun p => p.2 = false) then
      some (flagged.map Prod.fst)
    else
      let steps := run_wave acts flagged
      let executed := (flagged.filter Prod.snd).map
        (fun p => execute_step (acts p.1.id) p.1)
      let sets := merge_ids executed completed failed
      executeLoop acts fuel steps sets.1 sets.2

/-- DAGExecutor.execute: seed, then loop.  `steps.length + 1` units of
fuel always suffice because every non-final iteration executes at least
one PENDING step to a terminal status. -/
def dag_execute (acts : String → Except Err String) (steps : List DAGStep) :
    Option (List DAGStep) :=
  executeLoop acts (steps.length + 1) (seed steps) [] []

/-- Concrete inputs used by the theorems below: an always-succeeding
action table. -/
def okActs : String → Except Err String :=
  fun i => .ok ("done " ++ i)

/-- A two-step chain: `a` has no dependencies, `b` depends on `a`. -/
def chainSteps : List DAGStep :=
  [{ id := "a" }, { id := "b", depends_on := ["a"] }]

/-- A two-step dependency cycle. -/
def cycSteps : List DAGStep :=
  [{ id := "a", depends_on := ["b"] }, { id := "b", depends_on := ["a"] }]

/-- A step depending on an id that names no step. -/
def unknownSteps : List DAGStep :=
  [{ id := "x", depends_on := ["ghost"] }]

/-- A step already SKIPPED, and a PENDING step depending on it. -/
def skippedDep : DAGStep := { id := "b", status := .SKIPPED }

/-- PENDING step whose only dependency is `skippedDep`. -/
def pendingOnSkipped : DAGStep := { id := "c", depends_on := ["b"] }

/-- PENDING step whose only dependency is in the failed set. -/
def pendingOnFailed : DAGStep := { id := "d", depends_on := ["a"] }

/-- Retry scenario B of the spec: Transient twice, then success. -/
def opScenarioB : Nat → Except Err String :=
  fun k => if k < 2 then .error (.transient "boom") else .ok "success"

/-- Retry operation used by the C6 witness: Transient once, then success. -/
def opOneTransient : Nat → Except Err String :=
  fun k => if k = 0 then .error (.transient "t0") else .ok "v"

/-- Config with a negative base delay (all other fields default). -/
def cfgNegBase : ResilienceConfig := { base_delay := -1 }

/-- Config with max_fallback_depth = 0. -/
def cfgDepthZero : ResilienceConfig := { max_fallback_depth := 0 }

/-- A primary operation that always fails with a Transient error. -/
def pFail : Unit → Except Err String := fun _ => .error (.transient "primary down")

/-- A fallback operation that always succeeds. -/
def fbOk : Unit → Except Err String := fun _ => .ok "fb"

/-- An operation that raises a Catastrophic error. -/
def pCat : Unit → Except Err String := fun _ => .error (.catastrophic "sec")

/-- Breaker config for the C4 trace: threshold 1, recovery 10, two
half-open successes required. -/
def cfgCB : ResilienceConfig :=
  { failure_threshold := 1, recovery_timeout := 10, half_open_max_calls := 2 }

/-- A fresh CLOSED breaker over cfgCB. -/
def cbFresh : CircuitBreaker := { name := "t", config := cfgCB }

/-- The C4 trace: fail at t=0 (opens), probe succeed at t=10 (half-open,
one success), fail at t=10 (reopens, success streak NOT cleared by the
source), probe succeed at t=20. -/
def cbTrace : List CBCall :=
  [⟨0, .error (.other "x")⟩, ⟨10, .ok "s"⟩, ⟨10, .error (.other "x")⟩, ⟨20, .ok "s"⟩]

/-- A fresh CLOSED breaker over the default config. -/
def cbClosedDefault : CircuitBreaker := { name := "c", config := {} }

/-- A CLOSED breaker whose failure threshold is 1. -/
def cbThreshOne : CircuitBreaker := { name := "c", config := { failure_threshold := 1 } }

/-- An OPEN breaker whose last failure was at time 0 (default 30s
recovery timeout, so it is still within the window at time 0). -/
def cbOpenNow : CircuitBreaker :=
  { name := "c", config := {}, state := .OPEN, failure_count := 5,
    last_failure_time := some 0 }

/-- A HALF_OPEN breaker needing a single further success to close. -/
def cbHalfOpen : CircuitBreaker :=
  { name := "h", config := { half_open_max_calls := 1 }, state := .HALF_OPEN,
    last_failure_time := some 0 }

end Glassbox

namespace Glassbox

attribute [local semireducible] Rat.sub

/-! Helper lemmas about the DAG executor. -/

theorem get_ready_step_not_pending {step : DAGStep} (c f : List String)
    (h : step.status ≠ .PENDING) : get_ready_step c f step = (step, false) := by
  simp [get_ready_step, h]

theorem all_false_of_ne_nil {l : List α} (h : ¬ l.isEmpty) :
    l.all (fun _ => false) = false := by
  cases l with
  | nil => simp at h
  | cons a t => simp

theorem get_ready_step_seeded (s : DAGStep) :
    get_ready_step [] []
        (if s.depends_on.isEmpty then { s with status := .READY } else s) =
      ((if s.depends_on.isEmpty then { s with status := .READY } else s), false) := by
  by_cases h : s.depends_on.isEmpty
  · simp only [h, if_true]
    exact get_ready_step_not_pending [] [] (by simp)
  · simp only [h, if_false]
    by_cases hp : s.status = .PENDING
    · have hany : s.depends_on.any (fun d => List.contains [] d) = false := by
        simp
      have hall : s.depends_on.all (fun d => List.contains [] d) = false := by
        have := all_false_of_ne_nil (l := s.depends_on) (by simpa using h)
        simpa using this
      unfold get_ready_step
      rw [if_neg (by simp [hp]), if_neg (by simp [hany]), if_neg (by
        simp only [List.all_eq_true, List.contains_nil]
        simp only [Bool.false_eq_true]
        intro hforall
        obtain ⟨x, hx⟩ :=
          List.exists_mem_of_ne_nil _ (by simpa [List.isEmpty_iff] using h)
        exact hforall x hx)]
    · exact get_ready_step_not_pending [] [] hp

theorem get_ready_steps_seed (steps : List DAGStep) :
    get_ready_steps (seed steps) [] [] = (seed steps).map (fun s => (s, false)) := by
  unfold get_ready_steps seed
  rw [List.map_map, List.map_map]
  apply List.map_congr_left
  intro s _
  exact get_ready_step_seeded s

theorem dag_execute_eq_seed (acts : String → Except Err String)
    (steps : List DAGStep) : dag_execute acts steps = some (seed steps) := by
  unfold dag_execute executeLoop
  rw [get_ready_steps_seed]
  simp only [List.map_map, List.all_eq_true]
  rw [if_pos (by
    intro p hp
    simp only [List.mem_map] at hp
    obtain ⟨a, _, rfl⟩ := hp
    rfl)]
  congr 1
  exact List.map_id _

/-- Claim C1 (code bug): on the acyclic two-step chain a ← b with an
always-succeeding action, DAGExecutor.execute terminates but dispatches
nothing: the seeding loop marks `a` READY, yet get_ready_steps only
considers PENDING steps, so `a` is never returned as ready and `b` never
unblocks.  The run ends with zero terminal steps and a non-catastrophic
PENDING step, contradicting
completed + failed + skipped (+ pending only on catastrophic abort)
= totalSteps. -/
theorem C1_execute_dispatches_nothing :
    dag_execute okActs chainSteps =
      some [{ id := "a", status := .READY },
            { id := "b", depends_on := ["a"], status := .PENDING }] ∧
    ((seed chainSteps).countP (fun s =>
      s.status = StepStatus.COMPLETED ∨ s.status = StepStatus.FAILED ∨
        s.status = StepStatus.SKIPPED : DAGStep → Bool)) = 0 ∧
    ((seed chainSteps).countP (fun s => s.status = StepStatus.PENDING : DAGStep → Bool)) = 1 ∧
    chainSteps.length = 2 := by
  refine ⟨?_, by decide, by decide, rfl⟩
  rw [dag_execute_eq_seed]
  rfl

/-- Claim C9 counterexample: on the two-step dependency cycle a ↔ b,
graph construction does not fail — build_dependency_graph returns the
adjacency map — and execute returns normally with both steps still
PENDING, instead of the claimed fatal configuration error. -/
theorem C9_counterexample :
    build_dependency_graph cycSteps = [("a", ["b"]), ("b", ["a"])] ∧
    dag_execute okActs cycSteps = some cycSteps := by
  exact ⟨rfl, rfl⟩

/-- Claim C9 (amended): build_dependency_graph performs no validation at
all (and is never invoked by execute); a cyclic graph or a dependency on
an unknown id is accepted, execute terminates normally leaving those
steps PENDING, and no action is ever invoked — dag_execute does not
depend on the action table for any input. -/
theorem C9_no_construction_validation :
    (∀ acts, dag_execute acts cycSteps = some cycSteps) ∧
    (∀ acts, dag_execute acts unknownSteps = some unknownSteps) ∧
    (∀ (acts acts2 : String → Except Err String) (steps : List DAGStep),
      dag_execute acts steps = dag_execute acts2 steps) := by
  refine ⟨fun acts => ?_, fun acts => ?_, fun a1 a2 steps => ?_⟩
  · rw [dag_execute_eq_seed]
    rfl
  · rw [dag_execute_eq_seed]
    rfl
  · rw [dag_execute_eq_seed, dag_execute_eq_seed]

/-- Claim C5 counterexample: a PENDING step whose only dependency is
SKIPPED (but not in the failed id set) is NOT marked SKIPPED by
get_ready_steps — it stays PENDING — and the skip reason actually written
is "Dependency failed", not "dependency failed". -/
theorem C5_counterexample :
    (get_ready_steps [skippedDep, pendingOnSkipped] [] []).map
        (fun p => (p.1.status, p.2)) =
      [(.SKIPPED, false), (.PENDING, false)] ∧
    StepStatus.PENDING ≠ StepStatus.SKIPPED ∧
    (get_ready_steps [pendingOnFailed] [] ["a"]).map
        (fun p => (p.1.status, p.1.error, p.2)) =
      [(.SKIPPED, some "Dependency failed", false)] ∧
    (some "Dependency failed" : Option String) ≠ some "dependency failed" := by
  refine ⟨rfl, by decide, rfl, by decide⟩

/-- Claim C5 (amended): for a PENDING step, one readiness query marks it
SKIPPED with error "Dependency failed" and keeps it out of the ready list
when some dependency id is in the failed set; marks it READY and flags it
ready when every dependency id is in the completed set; and otherwise
leaves it PENDING.  A dependency that is merely SKIPPED does not cause
skipping: the dependent stays PENDING (it is still never dispatched, but
it is left PENDING rather than SKIPPED).  Non-PENDING steps are never
touched. -/
theorem C5_ready_query (completed failed : List String) (step : DAGStep) :
    (step.status = .PENDING →
      ((∃ d ∈ step.depends_on, d ∈ failed) →
        get_ready_step completed failed step =
          ({ step with status := .SKIPPED, error := some "Dependency failed" }, false)) ∧
      ((∀ d ∈ step.depends_on, d ∉ failed) → (∀ d ∈ step.depends_on, d ∈ completed) →
        get_ready_step completed failed step = ({ step with status := .READY }, true)) ∧
      ((∀ d ∈ step.depends_on, d ∉ failed) → (∃ d ∈ step.depends_on, d ∉ completed) →
        get_ready_step completed failed step = (step, false))) ∧
    (step.status ≠ .PENDING → get_ready_step completed failed step = (step, false)) ∧
    (∀ steps, get_ready_steps steps completed failed =
      steps.map (get_ready_step completed failed)) := by
  refine ⟨fun hp => ⟨fun hf => ?_, fun hnf hc => ?_, fun hnf hnc => ?_⟩,
    fun hnp => get_ready_step_not_pending _ _ hnp, fun steps => rfl⟩
  · have hany : step.depends_on.any (fun d => failed.contains d) = true := by
      simpa using hf
    unfold get_ready_step
    rw [if_neg (by simp [hp]), if_pos hany]
  · have hany : step.depends_on.any (fun d => failed.contains d) = false := by
      simpa using hnf
    have hall : step.depends_on.all (fun d => completed.contains d) = true := by
      simpa using hc
    unfold get_ready_step
    rw [if_neg (by simp [hp]),
      if_neg (by simp only [Bool.not_eq_true]; exact hany), if_pos hall]
  · have hany : step.depends_on.any (fun d => failed.contains d) = false := by
      simpa using hnf
    have hall : step.depends_on.all (fun d => completed.contains d) = false := by
      simpa using hnc
    unfold get_ready_step
    rw [if_neg (by simp [hp]),
      if_neg (by simp only [Bool.not_eq_true]; exact hany),
      if_neg (by simp only [Bool.not_eq_true]; exact hall)]

/-- Witness for C5: each arm of the readiness characterization,
instantiated on concrete steps. -/
theorem C5_ready_query_witness :
    get_ready_step ["a"] [] { id := "r", depends_on := ["a"] } =
      ({ id := "r", depends_on := ["a"], status := .READY }, true) ∧
    get_ready_step [] ["a"] pendingOnFailed =
      ({ pendingOnFailed with status := .SKIPPED, error := some "Dependency failed" }, false) ∧
    get_ready_step [] [] pendingOnSkipped = (pendingOnSkipped, false) ∧
    get_ready_step [] [] skippedDep = (skippedDep, false) := by
  refine ⟨?_, ?_, ?_, ?_⟩
  · exact ((C5_ready_query ["a"] [] _).1 rfl).2.1 (by decide) (by decide)
  · exact ((C5_ready_query [] ["a"] pendingOnFailed).1 rfl).1 (by decide)
  · exact ((C5_ready_query [] [] pendingOnSkipped).1 rfl).2.2 (by decide) (by decide)
  · exact (C5_ready_query [] [] skippedDep).2.1 (by decide)

/-- Claim C10 (confirmed): execute_step is total over the action's
outcome — every raised error, CatastrophicError included, is caught; the
step comes back with status COMPLETED (and the result) on success, or
FAILED (and the error message) on any error, identity fields intact. -/
theorem C10_execute_step_total (outcome : Except Err String) (step : DAGStep) :
    ((execute_step outcome step).status = .COMPLETED ∨
      (execute_step outcome step).status = .FAILED) ∧
    (execute_step outcome step).id = step.id ∧
    (execute_step outcome step).name = step.name ∧
    (execute_step outcome step).depends_on = step.depends_on ∧
    (∀ r, outcome = .ok r →
      execute_step outcome step = { step with status := .COMPLETED, result := r }) ∧
    (∀ e, outcome = .error e →
      execute_step outcome step =
        { step with status := .FAILED, error := some (Err.msg e) }) := by
  cases outcome <;> simp [execute_step]

/-- Witness for C10: one successful and one catastrophic outcome. -/
theorem C10_execute_step_total_witness :
    execute_step (.ok "r") { id := "s" } =
      { id := "s", status := .COMPLETED, result := "r" } ∧
    execute_step (.error (.catastrophic "sec")) { id := "s" } =
      { id := "s", status := .FAILED, error := some "sec" } := by
  constructor
  · exact (C10_execute_step_total (.ok "r") { id := "s" }).2.2.2.2.1 "r" rfl
  · exact (C10_execute_step_total (.error (.catastrophic "sec"))
      { id := "s" }).2.2.2.2.2 (.catastrophic "sec") rfl

/-! Helper lemmas about RetryStrategy. -/

theorem retryAux_ok {op : Nat → Except Err α} {att : Nat} (rem : Nat) {v : α}
    (h : op att = .ok v) : retryAux op att rem = (.ok v, 1) := by
  unfold retryAux
  rw [h]

theorem retryAux_transient_zero {op : Nat → Except Err α} {att : Nat} {m : String}
    (h : op att = .error (.transient m)) :
    retryAux op att 0 = (.error (.transient m), 1) := by
  unfold retryAux
  rw [h]

theorem retryAux_transient_step {op : Nat → Except Err α} {att r : Nat} {m : String}
    (h : op att = .error (.transient m)) :
    retryAux op att (r + 1) =
      ((retryAux op (att + 1) r).1, (retryAux op (att + 1) r).2 + 1) := by
  conv_lhs => rw [retryAux.eq_def]
  dsimp only
  rw [h]

theorem retryAux_fatal {op : Nat → Except Err α} {att : Nat} (rem : Nat) {e : Err}
    (h : op att = .error e) (hne : ∀ m, e ≠ .transient m) :
    retryAux op att rem = (.error e, 1) := by
  unfold retryAux
  rw [h]
  cases e with
  | transient m => exact absurd rfl (hne m)
  | recoverable m => rfl
  | permanent m => rfl
  | catastrophic m => rfl
  | other m => rfl

theorem retryAux_count_le (op : Nat → Except Err α) :
    ∀ (rem att : Nat), (retryAux op att rem).2 ≤ rem + 1 := by
  intro rem
  induction rem with
  | zero =>
    intro att
    unfold retryAux
    cases h : op att with
    | ok v => simp
    | error e => cases e <;> simp
  | succ r ih =>
    intro att
    unfold retryAux
    cases h : op att with
    | ok v => simp
    | error e =>
      cases e with
      | transient m =>
        have := ih (att + 1)
        simp only []
        omega
      | recoverable m => simp
      | permanent m => simp
      | catastrophic m => simp
      | other m => simp

theorem retryAux_first_ok (op : Nat → Except Err α) (v : α) :
    ∀ (j : Nat), ∀ (rem att : Nat), j ≤ rem →
      (∀ k, k < j → ∃ m, op (att + k) = .error (.transient m)) →
      op (att + j) = .ok v → retryAux op att rem = (.ok v, j + 1) := by
  intro j
  induction j with
  | zero =>
    intro rem att _ _ hok
    exact retryAux_ok rem (by simpa using hok)
  | succ j ih =>
    intro rem att hle htr hok
    obtain ⟨m, hm⟩ := htr 0 (Nat.succ_pos j)
    obtain ⟨r, rfl⟩ : ∃ r, rem = r + 1 := by
      cases rem with
      | zero => omega
      | succ r => exact ⟨r, rfl⟩
    rw [retryAux_transient_step (by simpa using hm)]
    have hrec : retryAux op (att + 1) r = (.ok v, j + 1) := by
      refine ih r (att + 1) (by omega) (fun k hk => ?_) ?_
      · obtain ⟨m2, hm2⟩ := htr (k + 1) (by omega)
        exact ⟨m2, by rw [show att + 1 + k = att + (k + 1) by omega]; exact hm2⟩
      · rw [show att + 1 + j = att + (j + 1) by omega]
        exact hok
    rw [hrec]

theorem retryAux_all_transient (op : Nat → Except Err α) :
    ∀ (rem att : Nat),
      (∀ k, k ≤ rem → ∃ m, op (att + k) = .error (.transient m)) →
      ∃ m, op (att + rem) = .error (.transient m) ∧
        retryAux op att rem = (.error (.transient m), rem + 1) := by
  intro rem
  induction rem with
  | zero =>
    intro att h
    obtain ⟨m, hm⟩ := h 0 le_rfl
    exact ⟨m, by simpa using hm, retryAux_transient_zero (by simpa using hm)⟩
  | succ r ih =>
    intro att h
    obtain ⟨m0, hm0⟩ := h 0 (Nat.zero_le _)
    obtain ⟨m, hm, heq⟩ := ih (att + 1) (fun k hk => by
      obtain ⟨m2, hm2⟩ := h (k + 1) (by omega)
      exact ⟨m2, by rw [show att + 1 + k = att + (k + 1) by omega]; exact hm2⟩)
    refine ⟨m, by rw [show att + (r + 1) = att + 1 + r by omega]; exact hm, ?_⟩
    rw [retryAux_transient_step (by simpa using hm0), heq]

theorem retryAux_first_fatal (op : Nat → Except Err α) {e : Err}
    (hne : ∀ m, e ≠ .transient m) :
    ∀ (j : Nat), ∀ (rem att : Nat), j ≤ rem →
      (∀ k, k < j → ∃ m, op (att + k) = .error (.transient m)) →
      op (att + j) = .error e → retryAux op att rem = (.error e, j + 1) := by
  intro j
  induction j with
  | zero =>
    intro rem att _ _ herr
    exact retryAux_fatal rem (by simpa using herr) hne
  | succ j ih =>
    intro rem att hle htr herr
    obtain ⟨m, hm⟩ := htr 0 (Nat.succ_pos j)
    obtain ⟨r, rfl⟩ : ∃ r, rem = r + 1 := by
      cases rem with
      | zero => omega
      | succ r => exact ⟨r, rfl⟩
    rw [retryAux_transient_step (by simpa using hm)]
    have hrec : retryAux op (att + 1) r = (.error e, j + 1) := by
      refine ih r (att + 1) (by omega) (fun k hk => ?_) ?_
      · obtain ⟨m2, hm2⟩ := htr (k + 1) (by omega)
        exact ⟨m2, by rw [show att + 1 + k = att + (k + 1) by omega]; exact hm2⟩
      · rw [show att + 1 + j = att + (j + 1) by omega]
        exact herr
    rw [hrec]

/-- Claim C6 (confirmed): execute_with_retry makes at most maxRetries+1
attempts and returns the first success; after maxRetries+1 all-Transient
attempts it surfaces the last Transient error; Permanent and Catastrophic
propagate from the failing attempt with no further attempt, and
Recoverable passes through untouched likewise.  Concretely, Transient
twice then success under maxRetries=3 returns success on attempt 3. -/
theorem C6_retry_contract :
    (∀ (α : Type) (cfg : ResilienceConfig) (op : Nat → Except Err α),
      (execute_with_retry cfg op).2 ≤ cfg.max_retries + 1 ∧
      (∀ j v, j ≤ cfg.max_retries →
        (∀ k, k < j → ∃ m, op k = .error (.transient m)) →
        op j = .ok v → execute_with_retry cfg op = (.ok v, j + 1)) ∧
      ((∀ k, k ≤ cfg.max_retries → ∃ m, op k = .error (.transient m)) →
        ∃ m, op cfg.max_retries = .error (.transient m) ∧
          execute_with_retry cfg op = (.error (.transient m), cfg.max_retries + 1)) ∧
      (∀ j m, j ≤ cfg.max_retries →
        (∀ k, k < j → ∃ m2, op k = .error (.transient m2)) →
        (op j = .error (.permanent m) →
          execute_with_retry cfg op = (.error (.permanent m), j + 1)) ∧
        (op j = .error (.catastrophic m) →
          execute_with_retry cfg op = (.error (.catastrophic m), j + 1)) ∧
        (op j = .error (.recoverable m) →
          execute_with_retry cfg op = (.error (.recoverable m), j + 1)))) ∧
    execute_with_retry { max_retries := 3 } opScenarioB = (.ok "success", 3) := by
  refine ⟨fun α cfg op => ⟨retryAux_count_le op _ _, ?_, ?_, ?_⟩, rfl⟩
  · intro j v hj htr hok
    exact retryAux_first_ok op v j cfg.max_retries 0 hj
      (fun k hk => by simpa using htr k hk) (by simpa using hok)
  · intro h
    obtain ⟨m, hm, heq⟩ := retryAux_all_transient op cfg.max_retries 0
      (fun k hk => by simpa using h k hk)
    exact ⟨m, by simpa using hm, heq⟩
  · intro j m hj htr
    refine ⟨fun h => ?_, fun h => ?_, fun h => ?_⟩
    · exact retryAux_first_fatal op (fun m2 => by simp) j cfg.max_retries 0 hj
        (fun k hk => by simpa using htr k hk) (by simpa using h)
    · exact retryAux_first_fatal op (fun m2 => by simp) j cfg.max_retries 0 hj
        (fun k hk => by simpa using htr k hk) (by simpa using h)
    · exact retryAux_first_fatal op (fun m2 => by simp) j cfg.max_retries 0 hj
        (fun k hk => by simpa using htr k hk) (by simpa using h)

/-- Witness for C6: a Transient-then-success operation under maxRetries=1
succeeds on attempt 2, and a Permanent error raised at once propagates
with a single attempt. -/
theorem C6_retry_contract_witness :
    execute_with_retry { max_retries := 1 } opOneTransient = (.ok "v", 2) ∧
    execute_with_retry { max_retries := 3 } opScenarioB = (.ok "success", 3) ∧
    execute_with_retry {}
        (fun _ => (.error (.permanent "p") : Except Err String)) =
      (.error (.permanent "p"), 1) := by
  refine ⟨?_, C6_retry_contract.2, ?_⟩
  · exact (C6_retry_contract.1 String { max_retries := 1 } opOneTransient).2.1 1 "v"
      (by exact Nat.le.refl)
      (fun k hk => ⟨"t0", by
        have hz : k = 0 := by omega
        subst hz
        rfl⟩)
      rfl
  · exact (((C6_retry_contract.1 String {}
        (fun _ => (.error (.permanent "p") : Except Err String))).2.2.2 0 "p"
      (Nat.zero_le _) (fun k hk => absurd hk (by omega))).1 rfl)

/-- Claim C8 counterexample: the claim's only stated precondition is
exponentialBase ≥ 1, but with a negative baseDelay (legal for the float
field) the delay sequence strictly decreases while both terms are below
maxDelay, and the jitter component (here 0, at sample u = 0) does not lie
in [0, delay * jitterFactor] because that interval is empty. -/
theorem C8_counterexample :
    (1 : ℚ) ≤ cfgNegBase.exponential_base ∧
    retry_delay_det cfgNegBase 1 < retry_delay_det cfgNegBase 0 ∧
    retry_delay_det cfgNegBase 0 < cfgNegBase.max_delay ∧
    retry_delay_det cfgNegBase 1 < cfgNegBase.max_delay ∧
    ¬ (0 ≤ calculate_delay cfgNegBase 0 0 - retry_delay_det cfgNegBase 0 ∧
       calculate_delay cfgNegBase 0 0 - retry_delay_det cfgNegBase 0 ≤
         retry_delay_det cfgNegBase 0 * cfgNegBase.jitter_factor) := by
  refine ⟨by norm_num [cfgNegBase], ?_, ?_, ?_, ?_⟩
  · norm_num [retry_delay_det, cfgNegBase]
  · norm_num [retry_delay_det, cfgNegBase]
  · norm_num [retry_delay_det, cfgNegBase]
  · intro h
    have h2 := h.2
    norm_num [calculate_delay, retry_delay_det, cfgNegBase] at h2

/-- Claim C8 (amended): with exponentialBase ≥ 1 and nonnegative
baseDelay, maxDelay and jitterFactor, calculate_delay at attempt n with
uniform sample u ∈ [0,1] equals
min(baseDelay * exponentialBase^n, maxDelay) plus the jitter
u * (delay * jitterFactor); the pre-jitter delay sequence is
non-decreasing and capped by maxDelay, and the jitter component lies in
[0, delay * jitterFactor]. -/
theorem C8_delay_props (cfg : ResilienceConfig) (n : Nat) (u : ℚ)
    (he : 1 ≤ cfg.exponential_base) (hb : 0 ≤ cfg.base_delay)
    (hM : 0 ≤ cfg.max_delay) (hj : 0 ≤ cfg.jitter_factor)
    (hu0 : 0 ≤ u) (hu1 : u ≤ 1) :
    calculate_delay cfg n u =
      min (cfg.base_delay * cfg.exponential_base ^ n) cfg.max_delay +
        u * (retry_delay_det cfg n * cfg.jitter_factor) ∧
    retry_delay_det cfg n ≤ retry_delay_det cfg (n + 1) ∧
    retry_delay_det cfg n ≤ cfg.max_delay ∧
    0 ≤ u * (retry_delay_det cfg n * cfg.jitter_factor) ∧
    u * (retry_delay_det cfg n * cfg.jitter_factor) ≤
      retry_delay_det cfg n * cfg.jitter_factor := by
  have he0 : (0 : ℚ) ≤ cfg.exponential_base := le_trans zero_le_one he
  have hdet0 : 0 ≤ retry_delay_det cfg n :=
    le_min (mul_nonneg hb (pow_nonneg he0 n)) hM
  have hjit0 : 0 ≤ retry_delay_det cfg n * cfg.jitter_factor :=
    mul_nonneg hdet0 hj
  refine ⟨rfl, ?_, min_le_right _ _, mul_nonneg hu0 hjit0, ?_⟩
  · exact min_le_min
      (mul_le_mul_of_nonneg_left (pow_le_pow_right₀ he (Nat.le_succ n)) hb) le_rfl
  · exact mul_le_of_le_one_left hjit0 hu1

/-- Witness for C8: the default configuration at attempt 0 with sample
u = 1/2. -/
theorem C8_delay_props_witness :
    retry_delay_det ({} : ResilienceConfig) 0 ≤ retry_delay_det {} 1 ∧
    retry_delay_det ({} : ResilienceConfig) 0 ≤ ({} : ResilienceConfig).max_delay ∧
    (1 / 2 : ℚ) *
        (retry_delay_det {} 0 * ({} : ResilienceConfig).jitter_factor) ≤
      retry_delay_det {} 0 * ({} : ResilienceConfig).jitter_factor := by
  have h := C8_delay_props {} 0 (1 / 2) (by norm_num) (by norm_num) (by norm_num)
    (by norm_num) (by norm_num) (by norm_num)
  exact ⟨h.2.1, h.2.2.1, h.2.2.2.2⟩

/-! Helper lemmas about FallbackChain. -/

theorem fallbackGo_ok {op : Unit → Except Err α} {v : α} (rest : List (Unit → Except Err α))
    (l : Nat) (h : op () = .ok v) :
    fallbackGo (op :: rest) l =
      (.ok { success := true, result := some v, fallback_level := l }, 1) := by
  conv_lhs => rw [fallbackGo.eq_def]
  dsimp only
  rw [h]

theorem fallbackGo_cat {op : Unit → Except Err α} {m : String}
    (rest : List (Unit → Except Err α)) (l : Nat)
    (h : op () = .error (.catastrophic m)) :
    fallbackGo (op :: rest) l = (.error (.catastrophic m), 1) := by
  conv_lhs => rw [fallbackGo.eq_def]
  dsimp only
  rw [h]
  cases rest with
  | nil => rfl
  | cons r rs => rfl

theorem fallbackGo_last_err {op : Unit → Except Err α} {e : Err} (l : Nat)
    (h : op () = .error e) (hnc : ∀ m, e ≠ .catastrophic m) :
    fallbackGo [op] l =
      (.ok { success := false, fallback_level := l, error := some e }, 1) := by
  conv_lhs => rw [fallbackGo.eq_def]
  dsimp only
  rw [h]
  cases e with
  | catastrophic m => exact absurd rfl (hnc m)
  | transient m => rfl
  | recoverable m => rfl
  | permanent m => rfl
  | other m => rfl

theorem fallbackGo_step {op : Unit → Except Err α} {e : Err}
    (r : Unit → Except Err α) (rs : List (Unit → Except Err α)) (l : Nat)
    (h : op () = .error e) (hnc : ∀ m, e ≠ .catastrophic m) :
    fallbackGo (op :: r :: rs) l =
      ((fallbackGo (r :: rs) (l + 1)).1, (fallbackGo (r :: rs) (l + 1)).2 + 1) := by
  conv_lhs => rw [fallbackGo.eq_def]
  dsimp only
  rw [h]
  cases e with
  | catastrophic m => exact absurd rfl (hnc m)
  | transient m => rfl
  | recoverable m => rfl
  | permanent m => rfl
  | other m => rfl

theorem fallbackGo_count_le (ops : List (Unit → Except Err α)) :
    ∀ l, (fallbackGo ops l).2 ≤ ops.length := by
  induction ops with
  | nil => intro l; simp [fallbackGo]
  | cons op rest ih =>
    intro l
    cases h : op () with
    | ok v => rw [fallbackGo_ok rest l h]; simp
    | error e =>
      by_cases hc : ∃ m, e = .catastrophic m
      · obtain ⟨m, rfl⟩ := hc
        rw [fallbackGo_cat rest l h]
        simp
      · push_neg at hc
        cases rest with
        | nil =>
          rw [fallbackGo_last_err l h hc]
          simp
        | cons r rs =>
          rw [fallbackGo_step r rs l h hc]
          have := ih (l + 1)
          simp only [List.length_cons] at this ⊢
          omega

theorem fallbackGo_append (pre : List (Unit → Except Err α)) :
    ∀ (op : Unit → Except Err α) (post : List (Unit → Except Err α)) (l : Nat),
      (∀ q ∈ pre, ∃ e, q () = .error e ∧ ∀ m, e ≠ .catastrophic m) →
      fallbackGo (pre ++ op :: post) l =
        ((fallbackGo (op :: post) (l + pre.length)).1,
         (fallbackGo (op :: post) (l + pre.length)).2 + pre.length) := by
  induction pre with
  | nil => intro op post l _; simp
  | cons q pre ih =>
    intro op post l hf
    obtain ⟨e, he, hnc⟩ := hf q (by simp)
    have hrw : (q :: pre) ++ op :: post = q :: (pre ++ op :: post) := rfl
    rw [hrw]
    obtain ⟨r, rs, hcons⟩ : ∃ r rs, pre ++ op :: post = r :: rs := by
      cases hcase : pre ++ op :: post with
      | nil => exact absurd hcase (by simp)
      | cons r rs => exact ⟨r, rs, rfl⟩
    rw [hcons, fallbackGo_step r rs l he hnc, ← hcons,
      ih op post (l + 1) (fun q2 hq2 => hf q2 (by simp [hq2]))]
    have harith : l + 1 + pre.length = l + (pre.length + 1) := by omega
    rw [harith]
    simp only [List.length_cons, Nat.add_assoc]

theorem pySlice_nil (k : Int) : pySlice ([] : List α) k = [] := by
  unfold pySlice
  split <;> simp

theorem fallbackGo_all_fail (ops : List (Unit → Except Err α)) (hne : ops ≠ [])
    (hf : ∀ q ∈ ops, ∃ e, q () = .error e ∧ ∀ m, e ≠ .catastrophic m) :
    ∀ l, ∃ e, (ops.getLast hne) () = .error e ∧
      fallbackGo ops l =
        (.ok { success := false, fallback_level := l + ops.length - 1,
               error := some e }, ops.length) := by
  induction ops with
  | nil => exact absurd rfl hne
  | cons op rest ih =>
    intro l
    obtain ⟨e, he, hnc⟩ := hf op (by simp)
    cases rest with
    | nil =>
      refine ⟨e, by simpa using he, ?_⟩
      rw [fallbackGo_last_err l he hnc]
      simp
    | cons r rs =>
      obtain ⟨e2, he2, heq⟩ := ih (by simp)
        (fun q hq => hf q (by simp [hq])) (l + 1)
      refine ⟨e2, ?_, ?_⟩
      · rw [List.getLast_cons (by simp)]
        exact he2
      · rw [fallbackGo_step r rs l he hnc, heq]
        simp only [List.length_cons]
        refine Prod.ext ?_ rfl
        simp only []
        congr 2
        omega

/-- Claim C7 counterexample: with maxFallbackDepth = 0 the chain still
makes one attempt (the primary), exceeding the claimed bound of "at most
maxFallbackDepth total attempts for every value of maxFallbackDepth"
(Python slices fallbacks[:maxFallbackDepth-1] with a negative index). -/
theorem C7_counterexample :
    (fallback_execute cfgDepthZero pFail [fbOk]).2 = 1 ∧
    ¬ (((fallback_execute cfgDepthZero pFail [fbOk]).2 : Int) ≤
        cfgDepthZero.max_fallback_depth) ∧
    (fallback_execute cfgDepthZero pFail [fbOk]).1 =
      .ok { success := false, fallback_level := 0,
            error := some (.transient "primary down") } := by
  refine ⟨rfl, by decide, rfl⟩

/-- Claim C7 (amended): FallbackChain.execute tries the primary and then,
in order, the fallbacks kept by the Python slice
fallbacks[:maxFallbackDepth-1].  When maxFallbackDepth ≥ 1 that is at
most maxFallbackDepth total attempts (the primary counting as attempt 1);
for maxFallbackDepth ≤ 0 the primary is still attempted (and the slice
keeps all but the last 1 - maxFallbackDepth fallbacks).  An attempt
failing with any non-Catastrophic error advances the chain, a
Catastrophic error aborts it immediately, the first success is returned
with its level, and when every attempted operation fails the chain
returns a failure carrying the last error. -/
theorem C7_fallback_contract :
    ∀ (α : Type) (cfg : ResilienceConfig) (p : Unit → Except Err α)
      (fbs : List (Unit → Except Err α)),
      (1 ≤ cfg.max_fallback_depth →
        ((fallback_execute cfg p fbs).2 : Int) ≤ cfg.max_fallback_depth) ∧
      (∀ (pre : List (Unit → Except Err α)) (op : Unit → Except Err α)
          (post : List (Unit → Except Err α)),
        p :: pySlice fbs (cfg.max_fallback_depth - 1) = pre ++ op :: post →
        (∀ q ∈ pre, ∃ e, q () = .error e ∧ ∀ m, e ≠ .catastrophic m) →
        (∀ v, op () = .ok v → fallback_execute cfg p fbs =
          (.ok { success := true, result := some v, fallback_level := pre.length },
           pre.length + 1)) ∧
        (∀ m, op () = .error (.catastrophic m) →
          fallback_execute cfg p fbs = (.error (.catastrophic m), pre.length + 1))) ∧
      ((∀ q ∈ p :: pySlice fbs (cfg.max_fallback_depth - 1),
          ∃ e, q () = .error e ∧ ∀ m, e ≠ .catastrophic m) →
        ∃ e, ((p :: pySlice fbs (cfg.max_fallback_depth - 1)).getLast (by simp)) ()
            = .error e ∧
          fallback_execute cfg p fbs =
            (.ok { success := false,
                   fallback_level := (pySlice fbs (cfg.max_fallback_depth - 1)).length,
                   error := some e },
             (pySlice fbs (cfg.max_fallback_depth - 1)).length + 1)) := by
  intro α cfg p fbs
  refine ⟨?_, ?_, ?_⟩
  · intro hd
    have h1 : (fallback_execute cfg p fbs).2 ≤
        1 + (pySlice fbs (cfg.max_fallback_depth - 1)).length := by
      have := fallbackGo_count_le
        (p :: pySlice fbs (cfg.max_fallback_depth - 1)) 0
      simpa [fallback_execute, Nat.add_comm] using this
    have h2 : (pySlice fbs (cfg.max_fallback_depth - 1)).length ≤
        (cfg.max_fallback_depth - 1).toNat := by
      unfold pySlice
      rw [if_pos (by omega)]
      exact List.length_take_le _ _
    have h3 : ((cfg.max_fallback_depth - 1).toNat : Int) =
        cfg.max_fallback_depth - 1 :=
      Int.toNat_of_nonneg (by omega)
    omega
  · intro pre op post hsplit hpre
    constructor
    · intro v hok
      unfold fallback_execute
      rw [hsplit, fallbackGo_append pre op post 0 hpre,
        fallbackGo_ok post _ hok]
      simp [Nat.add_comm]
    · intro m hcat
      unfold fallback_execute
      rw [hsplit, fallbackGo_append pre op post 0 hpre,
        fallbackGo_cat post _ hcat]
      simp [Nat.add_comm]
  · intro hall
    obtain ⟨e, hlast, heq⟩ := fallbackGo_all_fail
      (p :: pySlice fbs (cfg.max_fallback_depth - 1)) (by simp) hall 0
    refine ⟨e, hlast, ?_⟩
    unfold fallback_execute
    rw [heq]
    simp

/-- Witness for C7: the depth bound at the default config, a level-1
fallback success, an all-fail chain carrying the last error, and a
catastrophic abort on the primary. -/
theorem C7_fallback_contract_witness :
    ((fallback_execute {} pFail [fbOk]).2 : Int) ≤ 4 ∧
    fallback_execute {} pFail [fbOk] =
      (.ok { success := true, result := some "fb", fallback_level := 1 }, 2) ∧
    fallback_execute {} pFail [] =
      (.ok { success := false, fallback_level := 0,
             error := some (.transient "primary down") }, 1) ∧
    fallback_execute {} pCat [fbOk] = (.error (.catastrophic "sec"), 1) := by
  refine ⟨?_, ?_, ?_, ?_⟩
  · exact (C7_fallback_contract String {} pFail [fbOk]).1 (by decide)
  · exact ((C7_fallback_contract String {} pFail [fbOk]).2.1 [pFail] fbOk [] rfl
      (fun q hq => by
        simp only [List.mem_singleton] at hq
        subst hq
        exact ⟨.transient "primary down", rfl, fun m h => nomatch h⟩)).1 "fb" rfl
  · obtain ⟨e, hlast, heq⟩ := (C7_fallback_contract String {} pFail []).2.2
      (fun q hq => by
        rw [pySlice_nil] at hq
        simp only [List.mem_singleton] at hq
        subst hq
        exact ⟨.transient "primary down", rfl, fun m h => nomatch h⟩)
    have hp : pFail () = .error e := by
      simpa [pySlice_nil] using hlast
    have he : Err.transient "primary down" = e := by
      simpa [pFail] using hp
    subst he
    simpa [pySlice_nil] using heq
  · exact ((C7_fallback_contract String {} pCat [fbOk]).2.1 []
      pCat (pySlice [fbOk] (({} : ResilienceConfig).max_fallback_depth - 1)) rfl
      (fun q hq => absurd hq (List.not_mem_nil q))).2 "sec" rfl

/-! Helper lemma about record_failure used by C3 and C4. -/

theorem record_failure_counts (cb : CircuitBreaker) (now : ℚ) :
    (record_failure cb now).failure_count = cb.failure_count + 1 ∧
    (record_failure cb now).last_failure_time = some now := by
  unfold record_failure
  cases cb.state <;> dsimp only <;> try exact ⟨rfl, rfl⟩
  all_goals split <;> exact ⟨rfl, rfl⟩

/-- Claim C3 counterexample: CircuitBreaker.execute records a
CatastrophicError exactly like an ordinary failure — the `except
Exception` handler calls record_failure before re-raising — incrementing
failure_count, stamping last_failure_time, and (with failure_threshold 1)
opening the breaker because of it. -/
theorem C3_counterexample :
    (cb_execute cbClosedDefault 5
        (fun _ => (.error (.catastrophic "sec") : Except Err String))).2.failure_count
      = 1 ∧
    cbClosedDefault.failure_count = 0 ∧
    (cb_execute cbClosedDefault 5
        (fun _ => (.error (.catastrophic "sec") : Except Err String))).2.last_failure_time
      = some 5 ∧
    (cb_execute cbThreshOne 0
        (fun _ => (.error (.catastrophic "sec") : Except Err String))).2.state = .OPEN ∧
    cbThreshOne.state = .CLOSED := by
  exact ⟨rfl, rfl, rfl, rfl, rfl⟩

/-- Claim C3 (amended): a Catastrophic error propagates out of
RetryStrategy with no retry (even mid-sequence after Transient attempts)
and aborts FallbackChain immediately with no further attempt; but
CircuitBreaker.execute does NOT bypass its accounting — it records the
Catastrophic like any failure (failure_count incremented,
last_failure_time stamped, state possibly tripping to OPEN) before
re-raising it. -/
theorem C3_catastrophic_propagation :
    (∀ (α : Type) (cfg : ResilienceConfig) (op : Nat → Except Err α)
        (j : Nat) (m : String),
      j ≤ cfg.max_retries →
      (∀ k, k < j → ∃ m2, op k = .error (.transient m2)) →
      op j = .error (.catastrophic m) →
      execute_with_retry cfg op = (.error (.catastrophic m), j + 1)) ∧
    (∀ (α : Type) (pre : List (Unit → Except Err α))
        (op : Unit → Except Err α) (post : List (Unit → Except Err α))
        (l : Nat) (m : String),
      (∀ q ∈ pre, ∃ e, q () = .error e ∧ ∀ m2, e ≠ .catastrophic m2) →
      op () = .error (.catastrophic m) →
      fallbackGo (pre ++ op :: post) l =
        (.error (.catastrophic m), pre.length + 1)) ∧
    (∀ (cb : CircuitBreaker) (now : ℚ) (op : Unit → Except Err String)
        (m : String),
      (is_open cb now).1 = false → op () = .error (.catastrophic m) →
      cb_execute cb now op =
        (.error (.catastrophic m), record_failure (is_open cb now).2 now) ∧
      (record_failure (is_open cb now).2 now).failure_count =
        (is_open cb now).2.failure_count + 1 ∧
      (record_failure (is_open cb now).2 now).last_failure_time = some now) := by
  refine ⟨?_, ?_, ?_⟩
  · intro α cfg op j m hj htr hcat
    exact retryAux_first_fatal op (fun m2 => by simp) j cfg.max_retries 0 hj
      (fun k hk => by simpa using htr k hk) (by simpa using hcat)
  · intro α pre op post l m hpre hcat
    rw [fallbackGo_append pre op post l hpre, fallbackGo_cat post _ hcat]
    simp [Nat.add_comm]
  · intro cb now op m hopen hcat
    refine ⟨?_, (record_failure_counts _ now).1, (record_failure_counts _ now).2⟩
    unfold cb_execute
    rw [if_neg (by simp [hopen]), hcat]

/-- Witness for C3: the retry layer propagates a Catastrophic raised on
the very first attempt, the chain aborts on a catastrophic primary, and
a CLOSED breaker records the catastrophic failure. -/
theorem C3_catastrophic_propagation_witness :
    execute_with_retry {} (fun _ => (.error (.catastrophic "sec") : Except Err String))
      = (.error (.catastrophic "sec"), 1) ∧
    fallbackGo [pCat, fbOk] 0 = (.error (.catastrophic "sec"), 1) ∧
    cb_execute cbClosedDefault 5
        (fun _ => (.error (.catastrophic "sec") : Except Err String)) =
      (.error (.catastrophic "sec"), record_failure cbClosedDefault 5) := by
  refine ⟨?_, ?_, ?_⟩
  · exact C3_catastrophic_propagation.1 String {}
      (fun _ => (.error (.catastrophic "sec") : Except Err String)) 0 "sec"
      (Nat.zero_le _) (fun k hk => absurd hk (by omega)) rfl
  · exact C3_catastrophic_propagation.2.1 String [] pCat [fbOk] 0 "sec"
      (fun q hq => absurd hq (List.not_mem_nil q)) rfl
  · exact (C3_catastrophic_propagation.2.2 cbClosedDefault 5
      (fun _ => (.error (.catastrophic "sec") : Except Err String)) "sec"
      rfl rfl).1

/-- Claim C4 counterexample: the breaker is NOT exactly the claimed state
machine.  On the trace (fail@0, probe-success@10, probe-fail@10,
probe-success@20) with failure_threshold 1, recovery_timeout 10 and
halfOpenMaxCalls 2, the source closes the breaker after a SINGLE success
in the second HALF_OPEN episode — success_count survives the intermediate
failure — while the machine of the spec (spec_cb_run, whose success
streak is consecutive) is still HALF_OPEN with one success. -/
theorem C4_counterexample :
    (cb_run cbFresh cbTrace).state = .CLOSED ∧
    (spec_cb_run cbFresh cbTrace).state = .HALF_OPEN ∧
    (spec_cb_run cbFresh cbTrace).success_count = 1 ∧
    cbFresh.config.half_open_max_calls = 2 := by
  exact ⟨rfl, rfl, rfl, rfl⟩

/-- Claim C4 (amended): per-call behaviour of the source breaker.  While
CLOSED, each failure increments failure_count and the breaker opens
exactly when the threshold is reached; while OPEN within recoveryTimeout
of the last failure, a call is rejected with a Transient error without
invoking the action and without state change; once the timeout has
elapsed the next call flips the breaker to HALF_OPEN (resetting the dead
half_open_calls counter only); in HALF_OPEN a success increments
success_count, closing (and resetting counters) when it reaches
halfOpenMaxCalls, and a single failure reopens the breaker — but
success_count is NOT cleared then, so after a failed probe episode fewer
consecutive successes can close the breaker; any success resets
failure_count to 0.  There is no explicit probe-call limit: the
half_open_calls counter is never incremented or consulted. -/
theorem C4_breaker_machine :
    (∀ (cb : CircuitBreaker) (now : ℚ), cb.state = .CLOSED →
      (record_failure cb now).failure_count = cb.failure_count + 1 ∧
      (record_failure cb now).last_failure_time = some now ∧
      (record_failure cb now).state =
        (if cb.config.failure_threshold ≤ cb.failure_count + 1
          then CircuitState.OPEN else .CLOSED)) ∧
    (∀ (cb : CircuitBreaker) (now : ℚ) (op op2 : Unit → Except Err String),
      cb.state = .OPEN → should_attempt_recovery cb now = false →
      cb_execute cb now op =
        (.error (.transient ("Circuit " ++ cb.name ++ " is open")), cb) ∧
      cb_execute cb now op = cb_execute cb now op2) ∧
    (∀ (cb : CircuitBreaker) (now : ℚ),
      cb.state = .OPEN → should_attempt_recovery cb now = true →
      is_open cb now = (false, { cb with state := .HALF_OPEN, half_open_calls := 0 })) ∧
    (∀ (cb : CircuitBreaker) (now : ℚ), should_attempt_recovery cb now = false ↔
      ∃ t, cb.last_failure_time = some t ∧ now - t < cb.config.recovery_timeout) ∧
    (∀ cb : CircuitBreaker, cb.state = .HALF_OPEN →
      (record_success cb).failure_count = 0 ∧
      (record_success cb).state =
        (if cb.config.half_open_max_calls ≤ cb.success_count + 1
          then CircuitState.CLOSED else .HALF_OPEN) ∧
      (cb.config.half_open_max_calls ≤ cb.success_count + 1 →
        (record_success cb).success_count = 0)) ∧
    (∀ (cb : CircuitBreaker) (now : ℚ), cb.state = .HALF_OPEN →
      (record_failure cb now).state = .OPEN ∧
      (record_failure cb now).success_count = cb.success_count) ∧
    (∀ cb : CircuitBreaker, cb.state = .CLOSED →
      (record_success cb).failure_count = 0 ∧
      (record_success cb).state = .CLOSED ∧
      (record_success cb).success_count = cb.success_count) ∧
    (∀ cb : CircuitBreaker, (record_success cb).half_open_calls = cb.half_open_calls ∧
      (∀ now : ℚ, (record_failure cb now).half_open_calls = cb.half_open_calls)) := by
  refine ⟨?_, ?_, ?_, ?_, ?_, ?_, ?_, ?_⟩
  · intro cb now h
    refine ⟨(record_failure_counts cb now).1, (record_failure_counts cb now).2, ?_⟩
    unfold record_failure
    rw [h]
    dsimp only
    split <;> rfl
  · intro cb now op op2 h hrec
    have hio : is_open cb now = (true, cb) := by
      unfold is_open
      rw [h]
      dsimp only
      rw [if_neg (by simp [hrec])]
    constructor <;> (unfold cb_execute; rw [hio]) <;> rfl
  · intro cb now h hrec
    unfold is_open
    rw [h]
    dsimp only
    rw [if_pos hrec]
  · intro cb now
    unfold should_attempt_recovery
    cases hl : cb.last_failure_time with
    | none => simp
    | some t =>
      simp only [decide_eq_false_iff_not, not_le]
      constructor
      · intro hlt
        exact ⟨t, rfl, by linarith⟩
      · rintro ⟨t2, ht2, hlt⟩
        cases ht2
        linarith
  · intro cb h
    unfold record_success
    dsimp only
    rw [h]
    dsimp only
    split
    next => exact ⟨rfl, rfl, fun _ => rfl⟩
    next h2 => exact ⟨rfl, rfl, fun hc => absurd hc h2⟩
  · intro cb now h
    unfold record_failure
    dsimp only
    rw [h]
    exact ⟨rfl, rfl⟩
  · intro cb h
    unfold record_success
    dsimp only
    rw [h]
    exact ⟨rfl, rfl, rfl⟩
  · intro cb
    refine ⟨?_, fun now => ?_⟩
    · unfold record_success
      dsimp only
      cases cb.state
      · rfl
      · rfl
      · dsimp only
        split <;> rfl
    · unfold record_failure
      dsimp only
      cases cb.state
      · dsimp only
        split <;> rfl
      · dsimp only
        split <;> rfl
      · rfl

/-- Witness for C4: each transition arm on a concrete breaker. -/
theorem C4_breaker_machine_witness :
    (record_failure cbThreshOne 0).state = .OPEN ∧
    cb_execute cbOpenNow 0 pCat =
      (.error (.transient "Circuit c is open"), cbOpenNow) ∧
    cb_execute cbOpenNow 0 pCat = cb_execute cbOpenNow 0 fbOk ∧
    is_open cbOpenNow 40 =
      (false, { cbOpenNow with state := .HALF_OPEN, half_open_calls := 0 }) ∧
    should_attempt_recovery cbOpenNow 0 = false ∧
    (record_success cbHalfOpen).state = .CLOSED ∧
    (record_failure cbHalfOpen 1).state = .OPEN ∧
    (record_failure cbHalfOpen 1).success_count = cbHalfOpen.success_count ∧
    (record_success cbClosedDefault).failure_count = 0 := by
  refine ⟨?_, ?_, ?_, ?_, ?_, ?_, ?_, ?_, ?_⟩
  · rw [(C4_breaker_machine.1 cbThreshOne 0 rfl).2.2]
    rfl
  · exact (C4_breaker_machine.2.1 cbOpenNow 0 pCat fbOk rfl (by decide)).1
  · exact (C4_breaker_machine.2.1 cbOpenNow 0 pCat fbOk rfl (by decide)).2
  · exact C4_breaker_machine.2.2.1 cbOpenNow 40 rfl (by decide)
  · exact (C4_breaker_machine.2.2.2.1 cbOpenNow 0).mpr
      ⟨0, rfl, by norm_num [cbOpenNow]⟩
  · rw [(C4_breaker_machine.2.2.2.2.1 cbHalfOpen rfl).2.1]
    rfl
  · exact (C4_breaker_machine.2.2.2.2.2.1 cbHalfOpen 1 rfl).1
  · exact (C4_breaker_machine.2.2.2.2.2.1 cbHalfOpen 1 rfl).2
  · exact (C4_breaker_machine.2.2.2.2.2.2.1 cbClosedDefault rfl).1

/-- Claim C2 (code bug): for EVERY operation and fallback,
ResilientExecutor.execute (1) on an OPEN breaker returns Python None
without invoking any fallback — the chain it builds runs `lambda: None`
as its primary, which succeeds immediately at level 0; (2) on a breaker
that allows the call, returns the un-awaited
`circuit.execute(operation)` coroutine object — the sync lambda handed to
execute_with_retry never raises, so the operation is never run, nothing
is recorded into the breaker, and fallbacks are never tried; (3) only the
OPEN-breaker-with-no-fallbacks path raises the claimed Transient error. -/
theorem C2_resilient_executor_paths :
    (∀ (op : Nat → Except Err (PyVal String))
        (fb : Unit → Except Err (PyVal String)),
      resilient_execute {} 0 cbOpenNow op [fb] = (.ok .pynone, cbOpenNow)) ∧
    (∀ (op : Nat → Except Err (PyVal String))
        (fb : Unit → Except Err (PyVal String)),
      resilient_execute {} 0 cbClosedDefault op [fb] =
        (.ok .coro, cbClosedDefault)) ∧
    (∀ op : Nat → Except Err (PyVal String),
      resilient_execute {} 0 cbOpenNow op [] =
        (.error (.transient "Circuit c is open and no fallbacks"), cbOpenNow)) := by
  refine ⟨fun op fb => ?_, fun op fb => rfl, fun op => ?_⟩
  · have hio : is_open cbOpenNow 0 = (true, cbOpenNow) := rfl
    unfold resilient_execute
    rw [hio]
    rfl
  · have hio : is_open cbOpenNow 0 = (true, cbOpenNow) := rfl
    unfold resilient_execute
    rw [hio]
    rfl

end Glassbox
